import Mathlib

/-!
Verification of the email search core of the outlook-mcp repository
(src/tools/email.ts, src/api.ts, src/types.ts).

The progressive search planner, the query parameter builders and the
folder resolver are embedded as executable Lean functions.  The remote
Graph API is modelled as an oracle (a function from a request to an
outcome); `progressiveSearch` is instrumented to also record, in order,
every request it issued, which lets us state short-circuit and
propagation properties about a run.
-/

/-- The single-quote character (code point 39), used to build OData
string literals. -/
def squote : String := ⟨[Char.ofNat 39]⟩

/-- JS `value.toLowerCase()` as used by the repository (its inputs here
are ASCII): lowercases every character. -/
def lowerStr (s : String) : String := ⟨s.data.map Char.toLower⟩

/-- JS `value.replace(/'/g, "''")`: every single-quote character is
replaced by two single quotes. -/
def escQuotes (s : String) : String :=
  ⟨s.data.flatMap (fun c => if c = Char.ofNat 39 then [Char.ofNat 39, Char.ofNat 39] else [c])⟩

/-- Number of single-quote characters in a string. -/
def quoteCount (s : String) : Nat := s.data.count (Char.ofNat 39)

/-- `t` occurs as a contiguous substring of `s`. -/
def isSubstrOf (t s : String) : Bool :=
  (List.range (s.data.length + 1)).any (fun i => t.data.isPrefixOf (s.data.drop i))

/-- The `EMAIL_SELECT_FIELDS` constant of src/tools/email.ts. -/
def EMAIL_SELECT_FIELDS : String :=
  "id,subject,from,toRecipients,ccRecipients,receivedDateTime,bodyPreview,hasAttachments,importance,isRead"

/-- The OData query parameters built by the search code (the `QueryParams`
record of src/api.ts, restricted to the keys the email search uses).
Field `x` stands for the TS key `$x`. -/
structure QueryParams where
  top : Option Nat := none
  select : Option String := none
  filter : Option String := none
  orderby : Option String := none
  search : Option String := none
  count : Option String := none
deriving DecidableEq, Repr

/-- The boolean filter bundle handed to the search (fields are optional
booleans in TS; `some true` is the only value the code reacts to,
mirroring its `=== true` tests). -/
structure FilterTerms where
  hasAttachments : Option Bool := none
  unreadOnly : Option Bool := none
deriving DecidableEq, Repr

/-- The filter conditions accumulated by both `addBooleanFilters` and
`addBooleanFiltersToFilter` (identical push sequence in the source:
`hasAttachments eq true` first, then `isRead eq false`). -/
def booleanFilterConditions (filterTerms : FilterTerms) : List String :=
  (if filterTerms.hasAttachments = some true then ["hasAttachments eq true"] else []) ++
  (if filterTerms.unreadOnly = some true then ["isRead eq false"] else [])

/-- `addBooleanFilters` of src/tools/email.ts: sets `$filter` to the
conjunction of the applicable boolean clauses (only if at least one
flag is true); any pre-existing `$filter` is overwritten.  The TS
function mutates `params` in place; the embedding returns the updated
record. -/
def addBooleanFilters (params : QueryParams) (filterTerms : FilterTerms) : QueryParams :=
  let filterConditions := booleanFilterConditions filterTerms
  if filterConditions = [] then params
  else { params with filter := some (String.intercalate " and " filterConditions) }

/-- `addBooleanFiltersToFilter` of src/tools/email.ts: same clauses, but
a pre-existing truthy (non-empty) `$filter` is wrapped in parentheses
and conjoined with `and`; a falsy one (absent or empty string, per JS
truthiness of `params.$filter`) is overwritten directly. -/
def addBooleanFiltersToFilter (params : QueryParams) (filterTerms : FilterTerms) : QueryParams :=
  let additionalConditions := booleanFilterConditions filterTerms
  if additionalConditions = [] then params
  else
    match params.filter with
    | some f =>
      if f = "" then
        { params with filter := some (String.intercalate " and " additionalConditions) }
      else
        { params with
            filter := some ("(" ++ f ++ ") and " ++ String.intercalate " and " additionalConditions) }
    | none => { params with filter := some (String.intercalate " and " additionalConditions) }

/-- The `SearchTerms` record of src/tools/email.ts. -/
structure SearchTerms where
  query : Option String := none
  «from» : Option String := none
  «to» : Option String := none
  subject : Option String := none
deriving DecidableEq, Repr

/-- Failures an API call can settle with, as distinguished by
`callGraphAPI` in src/api.ts: a 401 maps to the dedicated
`Error("UNAUTHORIZED")`, any other non-2xx status to a generic API
failure, and a transport problem to a network error. -/
inductive ApiError where
  | unauthorized
  | apiFailure (status : Nat) (body : String)
  | network (msg : String)
deriving DecidableEq, Repr

/-- The settled outcome of one (paginated) API call. -/
inductive ApiOutcome (α : Type) where
  | ok (items : List α)
  | err (e : ApiError)
deriving DecidableEq, Repr

/-- One outgoing request as issued by the search code: target path,
OData parameters and extra headers. -/
structure ApiCall where
  path : String
  params : QueryParams
  headers : List (String × String) := []
deriving DecidableEq, Repr

/-- The remote Graph API as an oracle: what `callGraphAPIPaginated`
would aggregate for a given request (items over all followed pages, or
the error it rethrows). -/
def Api (α : Type) : Type := ApiCall → ApiOutcome α

/-- `callGraphAPIPaginated` of src/api.ts as seen by the planner: the
aggregated items are trimmed to `maxCount` when `maxCount > 0`
(`allItems.slice(0, maxCount)`); errors are rethrown unchanged. -/
def paginatedFetch {α : Type} (api : Api α) (call : ApiCall) (maxCount : Nat) : ApiOutcome α :=
  match api call with
  | .ok items => .ok (if maxCount > 0 then items.take maxCount else items)
  | .err e => .err e

/-- One entry of the strategy cascade of `progressiveSearch`: the tag
pushed onto `searchAttempts`, the request issued, and whether the
strategy returns its response even when empty (`terminal` is true only
for strategy 5, which does `return { ...response, ... }`
unconditionally on success). -/
structure Attempt where
  tag : String
  call : ApiCall
  terminal : Bool := false
deriving DecidableEq, Repr

/-- Strategy 1 of `progressiveSearch` (guard
`searchTerms.from && searchTerms.from.includes("@")`): `$filter` for
the sender address with exact match, `$count=true`, the
`ConsistencyLevel: eventual` header, no `$orderby`, issued against the
whole-mailbox path `me/messages`.  The `from` value is quote-escaped
and then lowercased. -/
def strategy1Attempts (searchTerms : SearchTerms) (filterTerms : FilterTerms)
    (maxCount : Nat) : List Attempt :=
  match searchTerms.«from» with
  | some f =>
    if f != "" && f.data.contains (Char.ofNat 64) then
      let escapedFrom := lowerStr (escQuotes f)
      let filterParams : QueryParams :=
        { top := some (Nat.min 50 maxCount)
          select := some EMAIL_SELECT_FIELDS
          filter := some ("sender/emailAddress/address eq " ++ squote ++ escapedFrom ++ squote)
          count := some "true" }
      let filterParams := addBooleanFiltersToFilter filterParams filterTerms
      [{ tag := "filter-from-exact"
         call := { path := "me/messages", params := filterParams
                   headers := [("ConsistencyLevel", "eventual")] } }]
    else []
  | none => []

/-- Strategy 2 (guard: `searchTerms.subject` truthy): `$filter` with
`startswith` on the quote-escaped subject, ordered by receipt date,
against the resolved folder endpoint. -/
def strategy2Attempts (endpoint : String) (searchTerms : SearchTerms)
    (filterTerms : FilterTerms) (maxCount : Nat) : List Attempt :=
  match searchTerms.subject with
  | some s =>
    if s != "" then
      let escapedSubject := escQuotes s
      let filterParams : QueryParams :=
        { top := some (Nat.min 50 maxCount)
          select := some EMAIL_SELECT_FIELDS
          orderby := some "receivedDateTime desc"
          filter := some ("startswith(subject," ++ squote ++ escapedSubject ++ squote ++ ")") }
      let filterParams := addBooleanFiltersToFilter filterParams filterTerms
      [{ tag := "filter-subject-startswith"
         call := { path := endpoint, params := filterParams } }]
    else []
  | none => []

/-- The KQL clause list of strategy 3, built in source order
(query verbatim, then subject, from, to as `field:"value"`). -/
def kqlTerms (searchTerms : SearchTerms) : List String :=
  (match searchTerms.query with
   | some q => if q != "" then [q] else []
   | none => []) ++
  (match searchTerms.subject with
   | some s => if s != "" then ["subject:\"" ++ s ++ "\""] else []
   | none => []) ++
  (match searchTerms.«from» with
   | some f => if f != "" then ["from:\"" ++ f ++ "\""] else []
   | none => []) ++
  (match searchTerms.«to» with
   | some t => if t != "" then ["to:\"" ++ t ++ "\""] else []
   | none => [])

/-- Strategy 3 (guard: at least one KQL term): combined `$search`,
ordered by receipt date, boolean filters added as a plain `$filter`
next to `$search`, against the resolved endpoint. -/
def strategy3Attempts (endpoint : String) (searchTerms : SearchTerms)
    (filterTerms : FilterTerms) (maxCount : Nat) : List Attempt :=
  let terms := kqlTerms searchTerms
  if terms != [] then
    let params : QueryParams :=
      { top := some (Nat.min 50 maxCount)
        select := some EMAIL_SELECT_FIELDS
        orderby := some "receivedDateTime desc"
        search := some (String.intercalate " " terms) }
    let params := addBooleanFilters params filterTerms
    [{ tag := "kql-combined-search", call := { path := endpoint, params := params } }]
  else []

/-- Field lookup `searchTerms[term]` for the strategy 4 loop. -/
def termValue (searchTerms : SearchTerms) : String → Option String
  | "subject" => searchTerms.subject
  | "from" => searchTerms.«from»
  | "to" => searchTerms.«to»
  | "query" => searchTerms.query
  | _ => none

/-- The fixed `searchPriority` order of strategy 4. -/
def searchPriority : List String := ["subject", "from", "to", "query"]

/-- Strategy 4: one single-term KQL attempt per populated field, in
`searchPriority` order; `query` is sent as a bare quoted text, the
other fields as `field:"value"`. -/
def strategy4Attempts (endpoint : String) (searchTerms : SearchTerms)
    (filterTerms : FilterTerms) (maxCount : Nat) : List Attempt :=
  searchPriority.flatMap (fun term =>
    match termValue searchTerms term with
    | some v =>
      if v != "" then
        let base : QueryParams :=
          { top := some (Nat.min 50 maxCount)
            select := some EMAIL_SELECT_FIELDS
            orderby := some "receivedDateTime desc" }
        let simplifiedParams :=
          if term = "query" then { base with search := some ("\"" ++ v ++ "\"") }
          else { base with search := some (term ++ ":\"" ++ v ++ "\"") }
        let simplifiedParams := addBooleanFilters simplifiedParams filterTerms
        [{ tag := "kql-single-term-" ++ term
           call := { path := endpoint, params := simplifiedParams } }]
      else []
    | none => [])

/-- Strategy 5 (guard: `hasAttachments === true || unreadOnly === true`):
boolean filters only, ordered by receipt date, against the resolved
endpoint.  It is terminal: its response is returned even when empty. -/
def strategy5Attempts (endpoint : String) (filterTerms : FilterTerms)
    (maxCount : Nat) : List Attempt :=
  if filterTerms.hasAttachments = some true ∨ filterTerms.unreadOnly = some true then
    let filterOnlyParams : QueryParams :=
      { top := some (Nat.min 50 maxCount)
        select := some EMAIL_SELECT_FIELDS
        orderby := some "receivedDateTime desc" }
    let filterOnlyParams := addBooleanFilters filterOnlyParams filterTerms
    [{ tag := "boolean-filters-only"
       call := { path := endpoint, params := filterOnlyParams }
       terminal := true }]
  else []

/-- The cascade of `progressiveSearch` in source order.  Which
strategies fire, their tags and their requests depend only on the
inputs, never on earlier API outcomes, so the list can be computed up
front; `runAttempts` below walks it exactly as the hand-unrolled
source does. -/
def plannedAttempts (endpoint : String) (searchTerms : SearchTerms)
    (filterTerms : FilterTerms) (maxCount : Nat) : List Attempt :=
  strategy1Attempts searchTerms filterTerms maxCount ++
  strategy2Attempts endpoint searchTerms filterTerms maxCount ++
  strategy3Attempts endpoint searchTerms filterTerms maxCount ++
  strategy4Attempts endpoint searchTerms filterTerms maxCount ++
  strategy5Attempts endpoint filterTerms maxCount

/-- The value `progressiveSearch` resolves with: the item list, the
`_searchInfo.strategies` attempt log, the `_searchInfo.failed` flag
(true only on the final all-strategies-failed return; absent, i.e.
false, otherwise), and — as instrumentation for the proofs — the
ordered trace of requests actually issued. -/
structure SearchOutcome (α : Type) where
  value : List α
  strategies : List String
  failed : Bool := false
  calls : List ApiCall := []

/-- The control flow of `progressiveSearch` over the cascade.  For each
attempt in order: push the tag (and record the request), issue the
call; a non-empty result returns immediately; a thrown error is caught
(`catch { /* try next strategy */ }`) and falls through to the next
attempt, as does an empty result — except for the terminal strategy 5,
which returns its response even when empty.  Exhaustion returns the
empty `failed: true` response. -/
def runAttempts {α : Type} (api : Api α) (maxCount : Nat) :
    List Attempt → List String → List ApiCall → SearchOutcome α
  | [], log, calls => { value := [], strategies := log, failed := true, calls := calls }
  | attempt :: rest, log, calls =>
    let log := log ++ [attempt.tag]
    let calls := calls ++ [attempt.call]
    match paginatedFetch api attempt.call maxCount with
    | .ok items =>
      if items.isEmpty then
        if attempt.terminal then { value := items, strategies := log, calls := calls }
        else runAttempts api maxCount rest log calls
      else { value := items, strategies := log, calls := calls }
    | .err _ => runAttempts api maxCount rest log calls

/-- `progressiveSearch` of src/tools/email.ts, with the remote API
abstracted as an oracle. -/
def progressiveSearch {α : Type} (api : Api α) (endpoint : String)
    (searchTerms : SearchTerms) (filterTerms : FilterTerms) (maxCount : Nat) :
    SearchOutcome α :=
  runAttempts api maxCount (plannedAttempts endpoint searchTerms filterTerms maxCount) [] []

/-! ## Folder resolution (src/tools/email.ts, src/types.ts) -/

/-- The fields of a mail folder the resolver looks at. -/
structure MailFolder where
  id : String
  displayName : String
  childFolderCount : Nat := 0
deriving DecidableEq, Repr

/-- The remote folder store as the resolver's queries observe it:
the top-level folder list (in server order) and, per parent id, the
child folder list. -/
structure FolderEnv where
  topFolders : List MailFolder
  childFolders : String → List MailFolder

/-- Every folder the mailbox tree holds at the two depths the code can
reach: all top-level folders and all of their children. -/
def treeFolders (env : FolderEnv) : List MailFolder :=
  env.topFolders ++ env.topFolders.flatMap (fun f => env.childFolders f.id)

/-- The `WELL_KNOWN_FOLDERS` record of src/types.ts. -/
def WELL_KNOWN_FOLDERS : String → Option String
  | "inbox" => some "me/mailFolders/inbox/messages"
  | "drafts" => some "me/mailFolders/drafts/messages"
  | "sent" => some "me/mailFolders/sentItems/messages"
  | "deleted" => some "me/mailFolders/deletedItems/messages"
  | "junk" => some "me/mailFolders/junkemail/messages"
  | "archive" => some "me/mailFolders/archive/messages"
  | _ => none

/-- `getAllFolders`: the top-level folders (`$top: 100`) plus, for each
of those with `childFolderCount > 0`, its child folders. -/
def getAllFolders (env : FolderEnv) : List MailFolder :=
  let topLevel := env.topFolders.take 100
  topLevel ++ (topLevel.filter (fun f => f.childFolderCount > 0)).flatMap
    (fun f => env.childFolders f.id)

/-- `getFolderIdByName`: first a server-side exact `displayName` match
over the top-level folders, then a case-insensitive scan over the
first 100 top-level folders, then a case-insensitive scan over all
folders including subfolders. -/
def getFolderIdByName (env : FolderEnv) (folderName : String) : Option String :=
  match env.topFolders.find? (fun f => f.displayName == folderName) with
  | some f => some f.id
  | none =>
    match (env.topFolders.take 100).find?
        (fun f => lowerStr f.displayName == lowerStr folderName) with
    | some f => some f.id
    | none =>
      match (getAllFolders env).find?
          (fun f => lowerStr f.displayName == lowerStr folderName) with
      | some f => some f.id
      | none => none

/-- `resolveFolderPath`: empty name resolves to the well-known inbox
endpoint; a lower-cased well-known alias resolves to its hardcoded
endpoint; otherwise the folder id is looked up and wrapped, and a
failed lookup raises the folder-not-found error. -/
def resolveFolderPath (env : FolderEnv) (folderName : String) : Except String String :=
  if folderName = "" then
    .ok "me/mailFolders/inbox/messages"
  else
    match WELL_KNOWN_FOLDERS (lowerStr folderName) with
    | some endpoint => .ok endpoint
    | none =>
      match getFolderIdByName env folderName with
      | some folderId => .ok ("me/mailFolders/" ++ folderId ++ "/messages")
      | none =>
        .error ("Folder \"" ++ folderName ++ "\" not found. Use list-folders to see available folders.")

/-! ## Helper lemmas about the builders and the cascade runner -/

theorem addBooleanFilters_orderby (p : QueryParams) (ft : FilterTerms) :
    (addBooleanFilters p ft).orderby = p.orderby := by
  unfold addBooleanFilters
  dsimp only
  split <;> rfl

theorem addBooleanFiltersToFilter_orderby (p : QueryParams) (ft : FilterTerms) :
    (addBooleanFiltersToFilter p ft).orderby = p.orderby := by
  unfold addBooleanFiltersToFilter
  dsimp only
  repeat' split
  all_goals rfl

theorem addBooleanFiltersToFilter_count (p : QueryParams) (ft : FilterTerms) :
    (addBooleanFiltersToFilter p ft).count = p.count := by
  unfold addBooleanFiltersToFilter
  dsimp only
  repeat' split
  all_goals rfl

theorem addBooleanFiltersToFilter_of_no_conditions (p : QueryParams) (ft : FilterTerms)
    (h : booleanFilterConditions ft = []) : addBooleanFiltersToFilter p ft = p := by
  unfold addBooleanFiltersToFilter
  simp [h]

/-- The attempt neither returned items nor was the terminal strategy:
the cascade moves on (a caught error, or an empty non-terminal result). -/
def continuing {α : Type} (api : Api α) (maxCount : Nat) (a : Attempt) : Prop :=
  (∃ e, paginatedFetch api a.call maxCount = ApiOutcome.err e) ∨
  (paginatedFetch api a.call maxCount = ApiOutcome.ok [] ∧ a.terminal = false)

/-- An outcome that wins the cascade: a non-empty item list. -/
def winsB {α : Type} : ApiOutcome α → Bool
  | .ok items => !items.isEmpty
  | .err _ => false

theorem continuing_winsB {α : Type} {api : Api α} {m : Nat} {a : Attempt}
    (h : continuing api m a) : winsB (paginatedFetch api a.call m) = false := by
  rcases h with ⟨e, he⟩ | ⟨he, _⟩ <;> rw [he] <;> rfl

/-- Complete characterization of a cascade run: either every attempt
fell through and the run ended with the empty `failed` response, or
some attempt at index `n` got an `ok` response that stopped the run
(non-empty, or empty at the terminal strategy) after all earlier
attempts fell through. -/
theorem runAttempts_characterization {α : Type} (api : Api α) (maxCount : Nat)
    (attempts : List Attempt) (log : List String) (calls : List ApiCall) :
    (runAttempts api maxCount attempts log calls =
        { value := [], strategies := log ++ attempts.map Attempt.tag, failed := true,
          calls := calls ++ attempts.map Attempt.call } ∧
      ∀ a ∈ attempts, continuing api maxCount a) ∨
    (∃ (n : Nat) (h : n < attempts.length) (items : List α),
      paginatedFetch api (attempts.get ⟨n, h⟩).call maxCount = ApiOutcome.ok items ∧
      (items = [] → (attempts.get ⟨n, h⟩).terminal = true) ∧
      (∀ a ∈ attempts.take n, continuing api maxCount a) ∧
      runAttempts api maxCount attempts log calls =
        { value := items,
          strategies := log ++ (attempts.take n).map Attempt.tag ++ [(attempts.get ⟨n, h⟩).tag],
          failed := false,
          calls := calls ++ (attempts.take n).map Attempt.call ++ [(attempts.get ⟨n, h⟩).call] }) := by
  induction attempts generalizing log calls with
  | nil =>
    left
    exact ⟨by simp [runAttempts], by simp⟩
  | cons a rest ih =>
    have hstep : runAttempts api maxCount (a :: rest) log calls =
        (match paginatedFetch api a.call maxCount with
         | .ok items =>
           if items.isEmpty then
             if a.terminal then
               { value := items, strategies := log ++ [a.tag], calls := calls ++ [a.call] }
             else runAttempts api maxCount rest (log ++ [a.tag]) (calls ++ [a.call])
           else { value := items, strategies := log ++ [a.tag], calls := calls ++ [a.call] }
         | .err _ => runAttempts api maxCount rest (log ++ [a.tag]) (calls ++ [a.call])) := rfl
    cases hfetch : paginatedFetch api a.call maxCount with
    | ok items =>
      by_cases hemp : items.isEmpty
      · have hitems : items = [] := List.isEmpty_iff.mp hemp
        by_cases hterm : a.terminal
        · right
          refine ⟨0, by simp, items, ?_, ?_, ?_, ?_⟩
          · simpa using hfetch
          · intro _; simpa using hterm
          · simp
          · rw [hstep, hfetch]
            simp [hemp, hterm]
        · have hcont : continuing api maxCount a :=
            Or.inr ⟨by rw [hfetch, hitems], by simpa using hterm⟩
          rcases ih (log ++ [a.tag]) (calls ++ [a.call]) with ⟨heq, hall⟩ |
            ⟨n, h, items', hf, hcond, hpre, heq⟩
          · left
            constructor
            · rw [hstep, hfetch]
              simp only [hemp, if_true, hterm, if_false, Bool.false_eq_true]
              rw [heq]
              simp
            · intro b hb
              rcases List.mem_cons.mp hb with rfl | hb
              · exact hcont
              · exact hall b hb
          · right
            refine ⟨n + 1, by simpa using h, items', by simpa using hf, by simpa using hcond,
              ?_, ?_⟩
            · intro b hb
              rw [List.take_succ_cons] at hb
              rcases List.mem_cons.mp hb with rfl | hb
              · exact hcont
              · exact hpre b hb
            · rw [hstep, hfetch]
              simp only [hemp, if_true, hterm, if_false, Bool.false_eq_true]
              rw [heq]
              simp
      · right
        refine ⟨0, by simp, items, ?_, ?_, ?_, ?_⟩
        · simpa using hfetch
        · intro hnil; rw [hnil] at hemp; simp at hemp
        · simp
        · rw [hstep, hfetch]
          simp [hemp]
    | err e =>
      have hcont : continuing api maxCount a := Or.inl ⟨e, hfetch⟩
      rcases ih (log ++ [a.tag]) (calls ++ [a.call]) with ⟨heq, hall⟩ |
        ⟨n, h, items', hf, hcond, hpre, heq⟩
      · left
        constructor
        · rw [hstep, hfetch]
          rw [heq]
          simp
        · intro b hb
          rcases List.mem_cons.mp hb with rfl | hb
          · exact hcont
          · exact hall b hb
      · right
        refine ⟨n + 1, by simpa using h, items', by simpa using hf, by simpa using hcond,
          ?_, ?_⟩
        · intro b hb
          rw [List.take_succ_cons] at hb
          rcases List.mem_cons.mp hb with rfl | hb
          · exact hcont
          · exact hpre b hb
        · rw [hstep, hfetch]
          rw [heq]
          simp

/-- A one-attempt cascade always logs exactly that attempt's tag and
issues exactly its request, whatever the outcome. -/
theorem runAttempts_singleton {α : Type} (api : Api α) (m : Nat) (a : Attempt) :
    (runAttempts api m [a] [] []).strategies = [a.tag] ∧
    (runAttempts api m [a] [] []).calls = [a.call] := by
  have hstep : runAttempts api m [a] [] [] =
      (match paginatedFetch api a.call m with
       | .ok items =>
         if items.isEmpty then
           if a.terminal then
             { value := items, strategies := [a.tag], calls := [a.call] }
           else runAttempts api m [] [a.tag] [a.call]
         else { value := items, strategies := [a.tag], calls := [a.call] }
       | .err _ => runAttempts api m [] [a.tag] [a.call]) := rfl
  rw [hstep]
  cases paginatedFetch api a.call m with
  | ok items =>
    by_cases h : items.isEmpty
    · by_cases ht : a.terminal <;> simp [h, ht, runAttempts]
    · simp [h]
  | err e => simp [runAttempts]

theorem strategy1Attempts_shape {st : SearchTerms} {ft : FilterTerms} {n : Nat} {a : Attempt}
    (h : a ∈ strategy1Attempts st ft n) :
    a.tag = "filter-from-exact" ∧ a.terminal = false ∧ a.call.path = "me/messages" ∧
    a.call.params.orderby = none ∧ a.call.headers = [("ConsistencyLevel", "eventual")] ∧
    a.call.params.count = some "true" := by
  unfold strategy1Attempts at h
  cases hf : st.«from» with
  | none => rw [hf] at h; simp at h
  | some f =>
    rw [hf] at h
    dsimp only at h
    split at h
    · rw [List.mem_singleton] at h
      subst h
      refine ⟨rfl, rfl, rfl, ?_, rfl, ?_⟩
      · rw [addBooleanFiltersToFilter_orderby]
      · rw [addBooleanFiltersToFilter_count]
    · simp at h

theorem strategy2Attempts_shape {ep : String} {st : SearchTerms} {ft : FilterTerms} {n : Nat}
    {a : Attempt} (h : a ∈ strategy2Attempts ep st ft n) :
    a.tag = "filter-subject-startswith" ∧ a.terminal = false ∧ a.call.path = ep ∧
    a.call.params.orderby = some "receivedDateTime desc" := by
  unfold strategy2Attempts at h
  cases hs : st.subject with
  | none => rw [hs] at h; simp at h
  | some s =>
    rw [hs] at h
    dsimp only at h
    split at h
    · rw [List.mem_singleton] at h
      subst h
      refine ⟨rfl, rfl, rfl, ?_⟩
      rw [addBooleanFiltersToFilter_orderby]
    · simp at h

theorem strategy3Attempts_shape {ep : String} {st : SearchTerms} {ft : FilterTerms} {n : Nat}
    {a : Attempt} (h : a ∈ strategy3Attempts ep st ft n) :
    a.tag = "kql-combined-search" ∧ a.terminal = false ∧ a.call.path = ep ∧
    a.call.params.orderby = some "receivedDateTime desc" := by
  unfold strategy3Attempts at h
  dsimp only at h
  split at h
  · rw [List.mem_singleton] at h
    subst h
    refine ⟨rfl, rfl, rfl, ?_⟩
    rw [addBooleanFilters_orderby]
  · simp at h

theorem strategy4Attempts_shape {ep : String} {st : SearchTerms} {ft : FilterTerms} {n : Nat}
    {a : Attempt} (h : a ∈ strategy4Attempts ep st ft n) :
    a.terminal = false ∧ a.call.path = ep ∧
    a.call.params.orderby = some "receivedDateTime desc" ∧
    a.tag ≠ "filter-from-exact" ∧ a.tag ≠ "boolean-filters-only" := by
  unfold strategy4Attempts at h
  rw [List.mem_flatMap] at h
  obtain ⟨term, hterm, ha⟩ := h
  have hterm4 : term = "subject" ∨ term = "from" ∨ term = "to" ∨ term = "query" := by
    simpa [searchPriority] using hterm
  cases hv : termValue st term with
  | none => rw [hv] at ha; simp at ha
  | some v =>
    rw [hv] at ha
    dsimp only at ha
    split at ha
    · rw [List.mem_singleton] at ha
      subst ha
      refine ⟨rfl, rfl, ?_, ?_, ?_⟩
      · rw [addBooleanFilters_orderby]
        split <;> rfl
      · rcases hterm4 with rfl | rfl | rfl | rfl <;> dsimp only <;> decide
      · rcases hterm4 with rfl | rfl | rfl | rfl <;> dsimp only <;> decide
    · simp at ha

theorem strategy5Attempts_shape {ep : String} {ft : FilterTerms} {n : Nat}
    {a : Attempt} (h : a ∈ strategy5Attempts ep ft n) :
    a.tag = "boolean-filters-only" ∧ a.terminal = true ∧ a.call.path = ep ∧
    a.call.params.orderby = some "receivedDateTime desc" := by
  unfold strategy5Attempts at h
  split at h
  · rw [List.mem_singleton] at h
    subst h
    refine ⟨rfl, rfl, rfl, ?_⟩
    rw [addBooleanFilters_orderby]
  · simp at h

theorem mem_plannedAttempts {ep : String} {st : SearchTerms} {ft : FilterTerms} {n : Nat}
    {a : Attempt} (h : a ∈ plannedAttempts ep st ft n) :
    a ∈ strategy1Attempts st ft n ∨ a ∈ strategy2Attempts ep st ft n ∨
    a ∈ strategy3Attempts ep st ft n ∨ a ∈ strategy4Attempts ep st ft n ∨
    a ∈ strategy5Attempts ep ft n := by
  unfold plannedAttempts at h
  simp only [List.mem_append] at h
  tauto

/-! ## Claim theorems -/

/-- C1: for every input and API behavior, the attempt log and request
trace of `progressiveSearch` are a prefix of the planned strategy order
1..5; every request except possibly the last came back without items
(so no strategy after the first non-empty result is ever attempted);
and when the planner returns a non-empty result set, the last issued
request is exactly the one that produced it (the log ends with the one
winning strategy) and the failed flag is clear. -/
theorem progressiveSearch_short_circuit {α : Type} (api : Api α) (endpoint : String)
    (st : SearchTerms) (ft : FilterTerms) (maxCount : Nat) :
    (∃ k, (progressiveSearch api endpoint st ft maxCount).strategies =
        ((plannedAttempts endpoint st ft maxCount).take k).map Attempt.tag ∧
      (progressiveSearch api endpoint st ft maxCount).calls =
        ((plannedAttempts endpoint st ft maxCount).take k).map Attempt.call) ∧
    (∀ c ∈ (progressiveSearch api endpoint st ft maxCount).calls.dropLast,
      winsB (paginatedFetch api c maxCount) = false) ∧
    ((progressiveSearch api endpoint st ft maxCount).value ≠ [] →
      (progressiveSearch api endpoint st ft maxCount).calls.getLast?.map
          (fun c => paginatedFetch api c maxCount) =
        some (ApiOutcome.ok (progressiveSearch api endpoint st ft maxCount).value) ∧
      (progressiveSearch api endpoint st ft maxCount).failed = false) := by
  have hps : progressiveSearch api endpoint st ft maxCount =
      runAttempts api maxCount (plannedAttempts endpoint st ft maxCount) [] [] := rfl
  rcases runAttempts_characterization api maxCount (plannedAttempts endpoint st ft maxCount) [] []
    with ⟨heq, hall⟩ | ⟨n, h, items, hf, hcond, hpre, heq⟩
  · rw [hps, heq]
    dsimp only
    refine ⟨⟨(plannedAttempts endpoint st ft maxCount).length, ?_, ?_⟩, ?_, ?_⟩
    · simp
    · simp
    · intro c hc
      have hc' : c ∈ (plannedAttempts endpoint st ft maxCount).map Attempt.call :=
        List.dropLast_subset _ (by simpa using hc)
      rw [List.mem_map] at hc'
      obtain ⟨a, ha, rfl⟩ := hc'
      exact continuing_winsB (hall a ha)
    · intro hv
      exact absurd rfl hv
  · have htake : (plannedAttempts endpoint st ft maxCount).take (n + 1) =
        (plannedAttempts endpoint st ft maxCount).take n ++
          [(plannedAttempts endpoint st ft maxCount).get ⟨n, h⟩] := by
      rw [List.take_succ, List.getElem?_eq_getElem h]
      simp [List.get_eq_getElem]
    rw [hps, heq]
    dsimp only
    refine ⟨⟨n + 1, ?_, ?_⟩, ?_, ?_⟩
    · rw [htake, List.map_append]
      simp [List.get_eq_getElem]
    · rw [htake, List.map_append]
      simp [List.get_eq_getElem]
    · intro c hc
      simp only [List.nil_append] at hc
      rw [List.dropLast_concat] at hc
      rw [List.mem_map] at hc
      obtain ⟨a, ha, rfl⟩ := hc
      exact continuing_winsB (hpre a ha)
    · intro _
      constructor
      · have hf' : paginatedFetch api
            (plannedAttempts endpoint st ft maxCount)[n].call maxCount = ApiOutcome.ok items := hf
        simp only [List.nil_append]
        rw [List.getLast?_concat]
        simp [hf']
      · rfl

def mockC1 : Api Nat := fun _ => ApiOutcome.ok [3]

theorem progressiveSearch_short_circuit_witness :
    (progressiveSearch mockC1 "me/mailFolders/inbox/messages"
        { «from» := some "a@b.com" } {} 10).value ≠ [] ∧
    ((progressiveSearch mockC1 "me/mailFolders/inbox/messages"
        { «from» := some "a@b.com" } {} 10).calls.getLast?.map
          (fun c => paginatedFetch mockC1 c 10) =
        some (ApiOutcome.ok (progressiveSearch mockC1 "me/mailFolders/inbox/messages"
          { «from» := some "a@b.com" } {} 10).value) ∧
      (progressiveSearch mockC1 "me/mailFolders/inbox/messages"
        { «from» := some "a@b.com" } {} 10).failed = false) :=
  ⟨by decide, (progressiveSearch_short_circuit mockC1 "me/mailFolders/inbox/messages"
      { «from» := some "a@b.com" } {} 10).2.2 (by decide)⟩

/-- C5: with no search terms at all and only `unreadOnly = true`,
`progressiveSearch` attempts exactly one strategy, the boolean-filters
fallback, and the single request it issues carries exactly the filter
`isRead eq false`. -/
theorem strategy5_only_unread_filter {α : Type} (api : Api α) (endpoint : String) (n : Nat) :
    (progressiveSearch api endpoint {} { unreadOnly := some true } n).strategies =
      ["boolean-filters-only"] ∧
    (progressiveSearch api endpoint {} { unreadOnly := some true } n).calls.map
      (fun c => c.params.filter) = [some "isRead eq false"] := by
  have h5 : plannedAttempts endpoint {} { unreadOnly := some true } n =
      [{ tag := "boolean-filters-only"
         call := { path := endpoint
                   params := { top := some (Nat.min 50 n), select := some EMAIL_SELECT_FIELDS
                               orderby := some "receivedDateTime desc"
                               filter := some "isRead eq false" } }
         terminal := true }] := rfl
  have hps : progressiveSearch api endpoint {} { unreadOnly := some true } n =
      runAttempts api n (plannedAttempts endpoint {} { unreadOnly := some true } n) [] [] := rfl
  rw [hps, h5]
  constructor
  · rw [(runAttempts_singleton api n _).1]
  · rw [(runAttempts_singleton api n _).2]
    simp

def mock6 : Api Nat := fun c => if c.path = "me/messages" then .ok [] else .ok [101, 102]

/-- C6: searching for `from = "a@b.com"` with no filters and maxCount 10
against an API that returns no items for strategy 1 (the `me/messages`
exact-sender query) and two items for the folder-endpoint strategies
returns those two items with the attempt log
`["filter-from-exact", "kql-combined-search"]`: strategy 2 is skipped
(no subject) and strategies 4 and 5 are never attempted. -/
theorem progressiveSearch_end_to_end_example :
    (progressiveSearch mock6 "me/mailFolders/inbox/messages"
        { «from» := some "a@b.com" } {} 10).value = [101, 102] ∧
    (progressiveSearch mock6 "me/mailFolders/inbox/messages"
        { «from» := some "a@b.com" } {} 10).strategies =
      ["filter-from-exact", "kql-combined-search"] := by decide

/-- C7: `addBooleanFiltersToFilter` is a pure merge.  When at least one
boolean flag is set: a present non-empty `$filter` is wrapped in
parentheses and conjoined with `and` and the new clauses, and an absent
`$filter` is set directly to the new clauses; in particular merging
`{$filter := "a eq 1"}` with `hasAttachments = true` yields
`"(a eq 1) and hasAttachments eq true"`. -/
theorem addBooleanFiltersToFilter_merge_correct
    (p : QueryParams) (ft : FilterTerms) (f : String) :
    ((ft.hasAttachments = some true ∨ ft.unreadOnly = some true) →
      (p.filter = some f → f ≠ "" →
        (addBooleanFiltersToFilter p ft).filter =
          some ("(" ++ f ++ ") and " ++
            String.intercalate " and " (booleanFilterConditions ft))) ∧
      (p.filter = none →
        (addBooleanFiltersToFilter p ft).filter =
          some (String.intercalate " and " (booleanFilterConditions ft)))) ∧
    (addBooleanFiltersToFilter { filter := some "a eq 1" } { hasAttachments := some true }).filter =
      some "(a eq 1) and hasAttachments eq true" := by
  constructor
  · intro hflag
    have hcond : booleanFilterConditions ft ≠ [] := by
      unfold booleanFilterConditions
      rcases hflag with hh | hh <;> simp [hh]
    constructor
    · intro hp hf
      simp [addBooleanFiltersToFilter, hp, hcond, hf]
    · intro hp
      simp [addBooleanFiltersToFilter, hp, hcond]
  · decide

theorem addBooleanFiltersToFilter_merge_correct_witness :
    (addBooleanFiltersToFilter { filter := some "a eq 1" }
        { hasAttachments := some true }).filter =
      some ("(" ++ "a eq 1" ++ ") and " ++
        String.intercalate " and " (booleanFilterConditions { hasAttachments := some true })) :=
  ((addBooleanFiltersToFilter_merge_correct { filter := some "a eq 1" }
      { hasAttachments := some true } "a eq 1").1 (Or.inl rfl)).1 rfl (by decide)

/-- The cascade only ever appends to the strategy log it was given. -/
theorem runAttempts_strategies_append {α : Type} (api : Api α) (m : Nat)
    (attempts : List Attempt) (log : List String) (calls : List ApiCall) :
    ∃ s, (runAttempts api m attempts log calls).strategies = log ++ s := by
  rcases runAttempts_characterization api m attempts log calls with ⟨heq, -⟩ |
    ⟨n, h, items, -, -, -, heq⟩
  · exact ⟨attempts.map Attempt.tag, by rw [heq]⟩
  · refine ⟨(attempts.take n).map Attempt.tag ++ [(attempts.get ⟨n, h⟩).tag], ?_⟩
    rw [heq]
    dsimp only
    rw [List.append_assoc]

/-- A non-empty cascade's log starts with the first attempt's tag. -/
theorem runAttempts_cons_strategies_head {α : Type} (api : Api α) (m : Nat)
    (a : Attempt) (rest : List Attempt) :
    (runAttempts api m (a :: rest) [] []).strategies.head? = some a.tag := by
  have hstep : runAttempts api m (a :: rest) [] [] =
      (match paginatedFetch api a.call m with
       | .ok items =>
         if items.isEmpty then
           if a.terminal then
             { value := items, strategies := [a.tag], calls := [a.call] }
           else runAttempts api m rest [a.tag] [a.call]
         else { value := items, strategies := [a.tag], calls := [a.call] }
       | .err _ => runAttempts api m rest [a.tag] [a.call]) := rfl
  cases hfetch : paginatedFetch api a.call m with
  | ok items =>
    by_cases hemp : items.isEmpty
    · by_cases hterm : a.terminal
      · rw [hstep, hfetch]
        simp [hemp, hterm]
      · rw [hstep, hfetch]
        simp only [hemp, if_true, hterm, if_false, Bool.false_eq_true]
        obtain ⟨s, hs⟩ := runAttempts_strategies_append api m rest [a.tag] [a.call]
        rw [hs]
        rfl
    · rw [hstep, hfetch]
      simp [hemp]
  | err e =>
    rw [hstep, hfetch]
    show (runAttempts api m rest [a.tag] [a.call]).strategies.head? = some a.tag
    obtain ⟨s, hs⟩ := runAttempts_strategies_append api m rest [a.tag] [a.call]
    rw [hs]
    rfl

def mock2 : Api Nat := fun c =>
  if c.path = "me/messages" then .err .unauthorized else .ok [5]

/-- Outcome of the first request a search run issued (if any). -/
def firstCallOutcome (api : Api Nat) (r : SearchOutcome Nat) (m : Nat) :
    Option (ApiOutcome Nat) :=
  r.calls.head?.map (fun c => paginatedFetch api c m)

/-- C2 counterexample: against an API whose strategy-1 request (path
`me/messages`) settles with the distinguished unauthorized failure and
whose later requests succeed, `progressiveSearch` does NOT propagate
the failure: the first issued request demonstrably came back
unauthorized, yet the planner absorbed it, advanced to strategy 3 and
returned its items as a normal result. -/
theorem progressiveSearch_swallows_unauthorized_cex :
    firstCallOutcome mock2
        (progressiveSearch mock2 "me/mailFolders/inbox/messages"
          { «from» := some "a@b.com" } {} 10) 10 =
      some (ApiOutcome.err ApiError.unauthorized) ∧
    (progressiveSearch mock2 "me/mailFolders/inbox/messages"
        { «from» := some "a@b.com" } {} 10).value = [5] ∧
    (progressiveSearch mock2 "me/mailFolders/inbox/messages"
        { «from» := some "a@b.com" } {} 10).strategies =
      ["filter-from-exact", "kql-combined-search"] ∧
    (progressiveSearch mock2 "me/mailFolders/inbox/messages"
        { «from» := some "a@b.com" } {} 10).failed = false := by decide

/-- C2 (amended): an unauthorized failure raised by the collaborator
during a strategy's API call is caught by that strategy's generic
catch block exactly like any other error: the cascade records the
attempt and proceeds to the next strategy unchanged.  No strategy
implementation distinguishes the auth-failure case. -/
theorem runAttempts_absorbs_unauthorized {α : Type} (api : Api α) (m : Nat)
    (a : Attempt) (rest : List Attempt) (log : List String) (calls : List ApiCall)
    (h : paginatedFetch api a.call m = ApiOutcome.err ApiError.unauthorized) :
    runAttempts api m (a :: rest) log calls =
      runAttempts api m rest (log ++ [a.tag]) (calls ++ [a.call]) := by
  have hstep : runAttempts api m (a :: rest) log calls =
      (match paginatedFetch api a.call m with
       | .ok items =>
         if items.isEmpty then
           if a.terminal then
             { value := items, strategies := log ++ [a.tag], calls := calls ++ [a.call] }
           else runAttempts api m rest (log ++ [a.tag]) (calls ++ [a.call])
         else { value := items, strategies := log ++ [a.tag], calls := calls ++ [a.call] }
       | .err _ => runAttempts api m rest (log ++ [a.tag]) (calls ++ [a.call])) := rfl
  rw [hstep, h]

def mockAllUnauthorized : Api Nat := fun _ => ApiOutcome.err ApiError.unauthorized

theorem runAttempts_absorbs_unauthorized_witness :
    paginatedFetch mockAllUnauthorized { path := "p", params := {} } 10 =
      ApiOutcome.err ApiError.unauthorized ∧
    runAttempts mockAllUnauthorized 10
        [{ tag := "t", call := { path := "p", params := {} } }] [] [] =
      runAttempts mockAllUnauthorized 10 [] ["t"] [{ path := "p", params := {} }] :=
  ⟨rfl, runAttempts_absorbs_unauthorized mockAllUnauthorized 10
    { tag := "t", call := { path := "p", params := {} } } [] [] [] rfl⟩

def mockEmpty : Api Nat := fun _ => ApiOutcome.ok []

/-- C3: the planner never throws for "no matches".  (1) Only strategy 5
is terminal — every other planned attempt falls through.  (2, 3) For a
non-terminal attempt, a thrown transport/API error and an empty result
continue the cascade in exactly the same way.  (4) When strategy 5's
precondition does not hold (no boolean filter requested) and the run
produced no items, the planner returns the empty list together with
the full attempt log and the explicit `failed = true` flag instead of
raising. -/
theorem progressiveSearch_no_matches_semantics :
    (∀ (ep : String) (st : SearchTerms) (ft : FilterTerms) (n : Nat) (a : Attempt),
      a ∈ plannedAttempts ep st ft n → (a.terminal = true ↔ a.tag = "boolean-filters-only")) ∧
    (∀ (α : Type) (api : Api α) (m : Nat) (a : Attempt) (rest : List Attempt)
      (log : List String) (calls : List ApiCall) (e : ApiError),
      a.terminal = false → paginatedFetch api a.call m = ApiOutcome.err e →
      runAttempts api m (a :: rest) log calls =
        runAttempts api m rest (log ++ [a.tag]) (calls ++ [a.call])) ∧
    (∀ (α : Type) (api : Api α) (m : Nat) (a : Attempt) (rest : List Attempt)
      (log : List String) (calls : List ApiCall),
      a.terminal = false → paginatedFetch api a.call m = ApiOutcome.ok [] →
      runAttempts api m (a :: rest) log calls =
        runAttempts api m rest (log ++ [a.tag]) (calls ++ [a.call])) ∧
    (∀ (α : Type) (api : Api α) (ep : String) (st : SearchTerms) (ft : FilterTerms) (m : Nat),
      ¬(ft.hasAttachments = some true ∨ ft.unreadOnly = some true) →
      (progressiveSearch api ep st ft m).value = [] →
      (progressiveSearch api ep st ft m).failed = true ∧
      (progressiveSearch api ep st ft m).strategies =
        (plannedAttempts ep st ft m).map Attempt.tag) := by
  refine ⟨?_, ?_, ?_, ?_⟩
  · intro ep st ft n a ha
    rcases mem_plannedAttempts ha with h1 | h2 | h3 | h4 | h5
    · obtain ⟨ht, hterm, -⟩ := strategy1Attempts_shape h1
      rw [ht, hterm]
      decide
    · obtain ⟨ht, hterm, -⟩ := strategy2Attempts_shape h2
      rw [ht, hterm]
      decide
    · obtain ⟨ht, hterm, -⟩ := strategy3Attempts_shape h3
      rw [ht, hterm]
      decide
    · obtain ⟨hterm, -, -, -, h5ne⟩ := strategy4Attempts_shape h4
      rw [hterm]
      simp [h5ne]
    · obtain ⟨ht, hterm, -⟩ := strategy5Attempts_shape h5
      rw [ht, hterm]
      decide
  · intro α api m a rest log calls e hterm hfetch
    have hstep : runAttempts api m (a :: rest) log calls =
        (match paginatedFetch api a.call m with
         | .ok items =>
           if items.isEmpty then
             if a.terminal then
               { value := items, strategies := log ++ [a.tag], calls := calls ++ [a.call] }
             else runAttempts api m rest (log ++ [a.tag]) (calls ++ [a.call])
           else { value := items, strategies := log ++ [a.tag], calls := calls ++ [a.call] }
         | .err _ => runAttempts api m rest (log ++ [a.tag]) (calls ++ [a.call])) := rfl
    rw [hstep, hfetch]
  · intro α api m a rest log calls hterm hfetch
    have hstep : runAttempts api m (a :: rest) log calls =
        (match paginatedFetch api a.call m with
         | .ok items =>
           if items.isEmpty then
             if a.terminal then
               { value := items, strategies := log ++ [a.tag], calls := calls ++ [a.call] }
             else runAttempts api m rest (log ++ [a.tag]) (calls ++ [a.call])
           else { value := items, strategies := log ++ [a.tag], calls := calls ++ [a.call] }
         | .err _ => runAttempts api m rest (log ++ [a.tag]) (calls ++ [a.call])) := rfl
    rw [hstep, hfetch]
    simp [hterm]
  · intro α api ep st ft m hflags hval
    have hps : progressiveSearch api ep st ft m =
        runAttempts api m (plannedAttempts ep st ft m) [] [] := rfl
    have hnoterm : ∀ a ∈ plannedAttempts ep st ft m, a.terminal = false := by
      intro a ha
      rcases mem_plannedAttempts ha with h1 | h2 | h3 | h4 | h5
      · exact (strategy1Attempts_shape h1).2.1
      · exact (strategy2Attempts_shape h2).2.1
      · exact (strategy3Attempts_shape h3).2.1
      · exact (strategy4Attempts_shape h4).1
      · exfalso
        unfold strategy5Attempts at h5
        rw [if_neg hflags] at h5
        simp at h5
    rcases runAttempts_characterization api m (plannedAttempts ep st ft m) [] []
      with ⟨heq, -⟩ | ⟨n, h, items, hf, hcond, -, heq⟩
    · rw [hps, heq]
      exact ⟨rfl, by simp⟩
    · exfalso
      rw [hps, heq] at hval
      dsimp only at hval
      have hterm := hcond hval
      have hfalse := hnoterm _ (List.get_mem (plannedAttempts ep st ft m) n h)
      rw [hfalse] at hterm
      cases hterm

theorem progressiveSearch_no_matches_semantics_witness :
    (progressiveSearch mockEmpty "me/mailFolders/inbox/messages"
        { «from» := some "a@b.com" } {} 10).failed = true ∧
    (progressiveSearch mockEmpty "me/mailFolders/inbox/messages"
        { «from» := some "a@b.com" } {} 10).strategies =
      (plannedAttempts "me/mailFolders/inbox/messages"
        { «from» := some "a@b.com" } {} 10).map Attempt.tag :=
  progressiveSearch_no_matches_semantics.2.2.2 Nat mockEmpty
    "me/mailFolders/inbox/messages" ({ «from» := some "a@b.com" } : SearchTerms)
    ({} : FilterTerms) 10 (by decide) (by decide)

/-- C4: when `from` is present and contains `@` (with no boolean
filters requested, so no clause merging applies), strategy 1 heads the
cascade and is attempted first; its `$filter` is exactly
`sender/emailAddress/address eq '<quote-escaped, lowercased from>'`;
it carries `$count=true` and the `ConsistencyLevel: eventual` header;
and across the whole cascade an attempt omits `$orderby` exactly when
it is strategy 1 — strategies 2-5 all send
`$orderby=receivedDateTime desc`. -/
theorem strategy1_filter_exact_sender (ep : String) (st : SearchTerms) (ft : FilterTerms)
    (n : Nat) (f : String) (hf : st.«from» = some f)
    (hat : f.data.contains (Char.ofNat 64) = true)
    (hflags : booleanFilterConditions ft = []) :
    (∃ a, (plannedAttempts ep st ft n).head? = some a ∧
      a.tag = "filter-from-exact" ∧
      a.call.params.filter =
        some ("sender/emailAddress/address eq " ++ squote ++ lowerStr (escQuotes f) ++ squote) ∧
      a.call.params.count = some "true" ∧
      a.call.headers = [("ConsistencyLevel", "eventual")] ∧
      a.call.params.orderby = none) ∧
    (∀ (α : Type) (api : Api α),
      (progressiveSearch api ep st ft n).strategies.head? = some "filter-from-exact") ∧
    (∀ b ∈ plannedAttempts ep st ft n,
      (b.call.params.orderby = none ↔ b.tag = "filter-from-exact")) := by
  have hfe : f ≠ "" := by
    intro h0
    subst h0
    exact absurd hat (by decide)
  have hguard : (f != "" && f.data.contains (Char.ofNat 64)) = true := by
    rw [hat]
    simp [bne_iff_ne, hfe]
  have h1 : strategy1Attempts st ft n =
      [{ tag := "filter-from-exact"
         call := { path := "me/messages"
                   params := { top := some (Nat.min 50 n)
                               select := some EMAIL_SELECT_FIELDS
                               filter := some ("sender/emailAddress/address eq " ++ squote ++
                                 lowerStr (escQuotes f) ++ squote)
                               count := some "true" }
                   headers := [("ConsistencyLevel", "eventual")] } }] := by
    unfold strategy1Attempts
    rw [hf]
    dsimp only
    rw [if_pos hguard]
    rw [addBooleanFiltersToFilter_of_no_conditions _ _ hflags]
  have hplan : plannedAttempts ep st ft n =
      { tag := "filter-from-exact"
        call := { path := "me/messages"
                  params := { top := some (Nat.min 50 n)
                              select := some EMAIL_SELECT_FIELDS
                              filter := some ("sender/emailAddress/address eq " ++ squote ++
                                lowerStr (escQuotes f) ++ squote)
                              count := some "true" }
                  headers := [("ConsistencyLevel", "eventual")] } } ::
        (strategy2Attempts ep st ft n ++ strategy3Attempts ep st ft n ++
         strategy4Attempts ep st ft n ++ strategy5Attempts ep ft n) := by
    unfold plannedAttempts
    rw [h1]
    rfl
  refine ⟨⟨_, by rw [hplan]; rfl, rfl, rfl, rfl, rfl, rfl⟩, ?_, ?_⟩
  · intro α api
    have hps : progressiveSearch api ep st ft n =
        runAttempts api n (plannedAttempts ep st ft n) [] [] := rfl
    rw [hps, hplan]
    exact runAttempts_cons_strategies_head api n _ _
  · intro b hb
    rcases mem_plannedAttempts hb with hb1 | hb2 | hb3 | hb4 | hb5
    · obtain ⟨ht, -, -, ho, -, -⟩ := strategy1Attempts_shape hb1
      rw [ht, ho]
      decide
    · obtain ⟨ht, -, -, ho⟩ := strategy2Attempts_shape hb2
      rw [ht, ho]
      decide
    · obtain ⟨ht, -, -, ho⟩ := strategy3Attempts_shape hb3
      rw [ht, ho]
      decide
    · obtain ⟨-, -, ho, hne, -⟩ := strategy4Attempts_shape hb4
      rw [ho]
      simp [hne]
    · obtain ⟨ht, -, -, ho⟩ := strategy5Attempts_shape hb5
      rw [ht, ho]
      decide

theorem strategy1_filter_exact_sender_witness :
    (progressiveSearch mockEmpty "me/mailFolders/inbox/messages"
        ({ «from» := some "a@b.com" } : SearchTerms) ({} : FilterTerms) 10).strategies.head? =
      some "filter-from-exact" :=
  (strategy1_filter_exact_sender "me/mailFolders/inbox/messages"
      { «from» := some "a@b.com" } {} 10 "a@b.com" rfl (by decide) rfl).2.1 Nat mockEmpty

/-- C10: for every input, the attempt planned for strategy 1 targets
the fixed whole-mailbox path `me/messages` regardless of the endpoint
`progressiveSearch` was given, while every other planned attempt
(strategies 2-5) targets exactly that endpoint. -/
theorem strategy1_ignores_endpoint (ep : String) (st : SearchTerms)
    (ft : FilterTerms) (n : Nat) :
    ((plannedAttempts ep st ft n).all (fun a =>
      if a.tag = "filter-from-exact" then a.call.path == "me/messages"
      else a.call.path == ep)) = true := by
  rw [List.all_eq_true]
  intro a ha
  rcases mem_plannedAttempts ha with h1 | h2 | h3 | h4 | h5
  · obtain ⟨ht, -, hp, -⟩ := strategy1Attempts_shape h1
    simp [ht, hp]
  · obtain ⟨ht, -, hp, -⟩ := strategy2Attempts_shape h2
    simp [ht, hp]
  · obtain ⟨ht, -, hp, -⟩ := strategy3Attempts_shape h3
    simp [ht, hp]
  · obtain ⟨-, hp, -, hne, -⟩ := strategy4Attempts_shape h4
    simp [hp, hne]
  · obtain ⟨ht, -, hp, -⟩ := strategy5Attempts_shape h5
    simp [ht, hp]

/-- Lowercasing never creates or destroys a single-quote character:
`toLower` maps the A-Z range into a-z and fixes everything else. -/
theorem toLower_eq_quote_iff (c : Char) :
    Char.toLower c = Char.ofNat 39 ↔ c = Char.ofNat 39 := by
  constructor
  · intro h
    unfold Char.toLower at h
    dsimp only at h
    split at h
    · exfalso
      rename_i hrange
      have hvalid : (c.toNat + 32).isValidChar := Or.inl (by omega)
      have hval : (Char.ofNat (c.toNat + 32)).toNat = c.toNat + 32 := by
        rw [Char.ofNat, dif_pos hvalid]
        rfl
      have h39 : (Char.ofNat 39).toNat = 39 := by decide
      have := congrArg Char.toNat h
      rw [hval, h39] at this
      omega
    · exact h
  · intro h
    subst h
    decide

/-- Quote doubling at the character-list level. -/
theorem count_quote_flatMap (l : List Char) :
    (l.flatMap (fun c => if c = Char.ofNat 39
        then [Char.ofNat 39, Char.ofNat 39] else [c])).count (Char.ofNat 39) =
      2 * l.count (Char.ofNat 39) := by
  induction l with
  | nil => rfl
  | cons c l ih =>
    rw [List.flatMap_cons, List.count_append, ih]
    by_cases hc : c = Char.ofNat 39
    · subst hc
      simp [List.count_cons]
      try omega
    · rw [if_neg hc]
      simp [List.count_cons, List.count_singleton, hc]
      try omega

/-- Lowercasing preserves the number of single quotes. -/
theorem count_quote_map_toLower (l : List Char) :
    (l.map Char.toLower).count (Char.ofNat 39) = l.count (Char.ofNat 39) := by
  induction l with
  | nil => rfl
  | cons c l ih =>
    rw [List.map_cons, List.count_cons, List.count_cons, ih]
    by_cases hc : c = Char.ofNat 39
    · subst hc
      simp
    · have hlc : Char.toLower c ≠ Char.ofNat 39 := fun hx => hc ((toLower_eq_quote_iff c).mp hx)
      simp [hc, hlc]

def obFrom : String := "O" ++ squote ++ "Brien" ++ squote ++ "s@ex.com"

def obQuoted : String := "O" ++ squote ++ "Brien" ++ squote ++ "s"

def obEsc : String := "O" ++ squote ++ squote ++ "Brien" ++ squote ++ squote ++ "s"

def obEscLower : String := "o" ++ squote ++ squote ++ "brien" ++ squote ++ squote ++ "s"

/-- The `$filter` clause strategy 1 builds for a `from` value
containing `O'Brien's` (no boolean filters). -/
def obFromClause : String :=
  ((strategy1Attempts { «from» := some obFrom } {} 10).head?.bind
    (fun a => a.call.params.filter)).getD ""

/-- The `$filter` clause strategy 2 builds for a `subject` value
containing `O'Brien's` (no boolean filters). -/
def obSubjectClause : String :=
  ((strategy2Attempts "me/mailFolders/inbox/messages" { subject := some obQuoted } {} 10).head?.bind
    (fun a => a.call.params.filter)).getD ""

/-- C8 counterexample: a `from` value containing `O'Brien's` does NOT
produce a filter clause containing `O''Brien''s` — strategy 1 also
lowercases the escaped value, so the clause contains `o''brien''s`
instead. -/
theorem escaping_from_lowercased_cex :
    isSubstrOf obQuoted obFrom = true ∧
    isSubstrOf obEsc obFromClause = false ∧
    isSubstrOf obEscLower obFromClause = true := by decide

/-- C8 (amended): every literal single quote in a user-supplied `from`
or `subject` value is doubled before insertion into a `$filter` clause
(the quote count of the escaped value is exactly twice the input's,
and lowercasing — applied additionally to `from` — preserves it); the
clauses are exactly the escaped value spliced between single quotes;
in particular a `subject` containing `O'Brien's` produces a clause
containing `O''Brien''s`, while a `from` containing `O'Brien's`
produces a clause containing the lowercased `o''brien''s`. -/
theorem quote_escaping_amended :
    (∀ s, quoteCount (escQuotes s) = 2 * quoteCount s) ∧
    (∀ s, quoteCount (lowerStr s) = quoteCount s) ∧
    (∀ (st : SearchTerms) (ft : FilterTerms) (n : Nat) (f : String),
      st.«from» = some f → f.data.contains (Char.ofNat 64) = true →
      booleanFilterConditions ft = [] →
      (strategy1Attempts st ft n).head?.bind (fun a => a.call.params.filter) =
        some ("sender/emailAddress/address eq " ++ squote ++ lowerStr (escQuotes f) ++ squote)) ∧
    (∀ (ep : String) (st : SearchTerms) (ft : FilterTerms) (n : Nat) (s : String),
      st.subject = some s → s ≠ "" → booleanFilterConditions ft = [] →
      (strategy2Attempts ep st ft n).head?.bind (fun a => a.call.params.filter) =
        some ("startswith(subject," ++ squote ++ escQuotes s ++ squote ++ ")")) ∧
    isSubstrOf obEsc obSubjectClause = true ∧
    isSubstrOf obEscLower obFromClause = true := by
  refine ⟨?_, ?_, ?_, ?_, by decide, by decide⟩
  · intro s
    exact count_quote_flatMap s.data
  · intro s
    exact count_quote_map_toLower s.data
  · intro st ft n f hf hat hflags
    have hfe : f ≠ "" := by
      intro h0
      subst h0
      exact absurd hat (by decide)
    have hguard : (f != "" && f.data.contains (Char.ofNat 64)) = true := by
      rw [hat]
      simp [bne_iff_ne, hfe]
    unfold strategy1Attempts
    rw [hf]
    dsimp only
    rw [if_pos hguard]
    rw [addBooleanFiltersToFilter_of_no_conditions _ _ hflags]
    rfl
  · intro ep st ft n s hs hse hflags
    have hguard : (s != "") = true := by
      simp [bne_iff_ne, hse]
    unfold strategy2Attempts
    rw [hs]
    dsimp only
    rw [if_pos hguard]
    rw [addBooleanFiltersToFilter_of_no_conditions _ _ hflags]
    rfl

theorem quote_escaping_amended_witness :
    (strategy2Attempts "me/mailFolders/inbox/messages"
        ({ subject := some obQuoted } : SearchTerms) ({} : FilterTerms) 10).head?.bind
      (fun a => a.call.params.filter) =
    some ("startswith(subject," ++ squote ++ escQuotes obQuoted ++ squote ++ ")") :=
  quote_escaping_amended.2.2.2.1 "me/mailFolders/inbox/messages"
    { subject := some obQuoted } {} 10 obQuoted rfl (by decide) rfl

/-- C9: the `resolveFolderPath` contract.  An empty (absent) name
resolves to the well-known inbox endpoint.  A name whose lowercasing
is a well-known alias resolves to its hardcoded endpoint with no
remote call — the result does not depend on the remote folder store at
all.  Any other name that matches no folder anywhere in the tree (top
level or nested child, case-insensitively) fails with the
folder-not-found error whose message tells the caller to use
list-folders first. -/
theorem resolveFolderPath_contract (env env2 : FolderEnv) (name : String) :
    (name = "" → resolveFolderPath env name = .ok "me/mailFolders/inbox/messages") ∧
    (∀ endp, WELL_KNOWN_FOLDERS (lowerStr name) = some endp →
      resolveFolderPath env name = .ok endp ∧
      resolveFolderPath env name = resolveFolderPath env2 name) ∧
    (name ≠ "" → WELL_KNOWN_FOLDERS (lowerStr name) = none →
      (∀ fld ∈ treeFolders env, lowerStr fld.displayName ≠ lowerStr name) →
      resolveFolderPath env name =
        .error ("Folder \"" ++ name ++ "\" not found. Use list-folders to see available folders.")) := by
  refine ⟨?_, ?_, ?_⟩
  · intro h
    subst h
    rfl
  · intro endp hwk
    have hne : name ≠ "" := by
      intro h0
      subst h0
      have hnone : WELL_KNOWN_FOLDERS (lowerStr "") = none := by decide
      rw [hnone] at hwk
      cases hwk
    constructor
    · unfold resolveFolderPath
      rw [if_neg hne, hwk]
    · unfold resolveFolderPath
      rw [if_neg hne, if_neg hne, hwk]
  · intro hne hwk htree
    have hgid : getFolderIdByName env name = none := by
      have h1 : env.topFolders.find? (fun fld => fld.displayName == name) = none := by
        rw [List.find?_eq_none]
        intro fld hf
        have hmem : fld ∈ treeFolders env := List.mem_append_left _ hf
        simp only [beq_iff_eq]
        intro heq
        exact htree fld hmem (by rw [heq])
      have h2 : (env.topFolders.take 100).find?
          (fun fld => lowerStr fld.displayName == lowerStr name) = none := by
        rw [List.find?_eq_none]
        intro fld hf
        have hmem : fld ∈ treeFolders env :=
          List.mem_append_left _ (List.mem_of_mem_take hf)
        simp only [beq_iff_eq]
        exact htree fld hmem
      have h3 : (getAllFolders env).find?
          (fun fld => lowerStr fld.displayName == lowerStr name) = none := by
        rw [List.find?_eq_none]
        intro fld hf
        have hmem : fld ∈ treeFolders env := by
          unfold getAllFolders at hf
          dsimp only at hf
          rw [List.mem_append] at hf
          rcases hf with hf | hf
          · exact List.mem_append_left _ (List.mem_of_mem_take hf)
          · rw [List.mem_flatMap] at hf
            obtain ⟨pf, hpf, hcf⟩ := hf
            have hp : pf ∈ env.topFolders :=
              List.mem_of_mem_take (List.mem_of_mem_filter hpf)
            apply List.mem_append_right
            rw [List.mem_flatMap]
            exact ⟨pf, hp, hcf⟩
        simp only [beq_iff_eq]
        exact htree fld hmem
      unfold getFolderIdByName
      rw [h1, h2, h3]
    unfold resolveFolderPath
    rw [if_neg hne, hwk, hgid]

def envW : FolderEnv :=
  { topFolders := [{ id := "id1", displayName := "Projects", childFolderCount := 1 }]
    childFolders := fun pid =>
      if pid = "id1" then [{ id := "id2", displayName := "Invoices" }] else [] }

theorem resolveFolderPath_contract_witness :
    resolveFolderPath envW "Inbox" = .ok "me/mailFolders/inbox/messages" ∧
    resolveFolderPath envW "NoSuch" =
      .error ("Folder \"" ++ "NoSuch" ++ "\" not found. Use list-folders to see available folders.") :=
  ⟨((resolveFolderPath_contract envW envW "Inbox").2.1
      "me/mailFolders/inbox/messages" (by decide)).1,
   (resolveFolderPath_contract envW envW "NoSuch").2.2
      (by decide) (by decide) (by decide)⟩
